import Mathlib

set_option maxHeartbeats 1000000

/- Shallow embedding of src/tjaf.py: the TJA chart parser (class Tja, method
   _parse) and its document projector (method to_mongo).  Python strings are
   Lean Strings; every character-level operation is implemented structurally
   over the underlying character list so that all definitions evaluate by
   kernel reduction. -/

/-- The whitespace characters stripped by Python str.strip() (ASCII range). -/
def wsChar (c : Char) : Bool :=
  c == ' ' || c == '\t' || c == '\n' || c == '\r' || c == '\x0b' || c == '\x0c'

/-- str.strip(): drop leading and trailing whitespace from a character list. -/
def stripL (cs : List Char) : List Char :=
  ((cs.dropWhile wsChar).reverse.dropWhile wsChar).reverse

/-- str.strip() at the String level. -/
def pyStrip (s : String) : String := String.mk (stripL s.toList)

/-- str.upper() on the ASCII letters. -/
def asciiUpper (s : String) : String := String.mk (s.toList.map Char.toUpper)

/-- str.lower() on the ASCII letters. -/
def asciiLower (s : String) : String := String.mk (s.toList.map Char.toLower)

/-- str.startswith: does the first list start with the second? -/
def listStarts : List Char → List Char → Bool
  | _, [] => true
  | [], _ :: _ => false
  | c :: cs, p :: ps => c == p && listStarts cs ps

/-- str.split(sep) with a one-character separator: keeps empty fields, and
    the empty string yields a single empty field. -/
def splitOnChar (sep : Char) : List Char → List (List Char)
  | [] => [[]]
  | c :: cs =>
    if c == sep then [] :: splitOnChar sep cs
    else
      match splitOnChar sep cs with
      | [] => [[c]]
      | g :: gs => (c :: g) :: gs

/-- str.split(sep) at the String level. -/
def splitStr (sep : Char) (s : String) : List String :=
  (splitOnChar sep s.toList).map String.mk

/-- Value of a decimal digit string (caller guarantees digits only). -/
def digitsVal (cs : List Char) : Nat :=
  cs.foldl (fun a c => a * 10 + (c.toNat - '0'.toNat)) 0

/-- Nonempty and all decimal digits. -/
def allDigits (cs : List Char) : Bool := !cs.isEmpty && cs.all Char.isDigit

/-- Parse a plain decimal digit run, or fail. -/
def natOfDigits? (cs : List Char) : Option Nat :=
  if allDigits cs then some (digitsVal cs) else none

/-- Signed decimal integer, modelling Python int(str) on the fragment the
    parser can meet: an optional sign followed by decimal digits (surrounding
    whitespace is stripped by the caller). -/
def intOfChars? : List Char → Option Int
  | '+' :: rest => (natOfDigits? rest).map Int.ofNat
  | '-' :: rest => (natOfDigits? rest).map (fun n => -(n : Int))
  | cs => (natOfDigits? cs).map Int.ofNat

/-- Python int(str): strip whitespace, then a signed decimal integer. -/
def pyInt? (s : String) : Option Int := intOfChars? (stripL s.toList)

/-- 10^k over the rationals for a signed exponent. -/
def qpow10 : Int → ℚ
  | Int.ofNat n => (10 : ℚ) ^ n
  | Int.negSucc n => 1 / (10 : ℚ) ^ (n + 1)

/-- Value of an integer part plus a fractional digit run. -/
def mantissaQ (ip fp : List Char) : ℚ :=
  (digitsVal ip : ℚ) + (digitsVal fp : ℚ) / (10 : ℚ) ^ fp.length

/-- Unsigned body of a Python float literal: digits, optional fraction,
    optional exponent (at least one digit in the mantissa). -/
def floatBody? (cs : List Char) : Option ℚ :=
  let ip := cs.takeWhile Char.isDigit
  let rest := cs.drop ip.length
  match rest with
  | [] => if ip.isEmpty then none else some ((digitsVal ip : ℚ))
  | '.' :: rest2 =>
    let fp := rest2.takeWhile Char.isDigit
    let rest3 := rest2.drop fp.length
    if ip.isEmpty && fp.isEmpty then none
    else
      match rest3 with
      | [] => some (mantissaQ ip fp)
      | c :: rest4 =>
        if c == 'e' || c == 'E' then
          (intOfChars? rest4).map (fun k => mantissaQ ip fp * qpow10 k)
        else none
  | c :: rest2 =>
    if (c == 'e' || c == 'E') && !ip.isEmpty then
      (intOfChars? rest2).map (fun k => (digitsVal ip : ℚ) * qpow10 k)
    else none

/-- Python float(str) on the decimal fragment relevant here: optional sign,
    digits with optional fraction and exponent.  Exotic accepted spellings
    (inf, nan, digit underscores) are outside the modelled fragment. -/
def pyFloat? (s : String) : Option ℚ :=
  match stripL s.toList with
  | '+' :: cs => floatBody? cs
  | '-' :: cs => (floatBody? cs).map Neg.neg
  | cs => floatBody? cs

/-- One EXAMn sub-record (exam_data dict in _parse). -/
structure ExamRecord where
  id : Nat
  type : String
  red_pass : Int
  gold_pass : Int
  scope : String
deriving Repr, DecidableEq

/-- One #NEXTSONG sub-record (song_info dict in _parse). -/
structure SongRecord where
  title : String
  artist : String
  genre : String
  wave : String
  offset : ℚ
  scoreInit : Int
deriving Repr, DecidableEq

/-- One per-course record (value of self.courses); the exams and songs keys
    are optional because the Python dict only gains them on commit. -/
structure CourseRecord where
  stars : Option Int
  branch : Bool
  exams : Option (List ExamRecord) := none
  songs : Option (List SongRecord) := none
deriving Repr, DecidableEq

/-- self.courses: an insertion-ordered string-keyed mapping. -/
abbrev Courses := List (String × CourseRecord)

/-- Lookup in the courses mapping. -/
def getCourse : Courses → String → Option CourseRecord
  | [], _ => none
  | (k', v) :: rest, k => if k' = k then some v else getCourse rest k

/-- Key membership in the courses mapping. -/
def containsC : Courses → String → Bool
  | [], _ => false
  | (k', _) :: rest, k => if k' = k then true else containsC rest k

/-- Update the value at a key in place (Python dict item assignment for an
    existing key). -/
def modifyC : Courses → String → (CourseRecord → CourseRecord) → Courses
  | [], _, _ => []
  | (k', v) :: rest, k, f => (k', if k' = k then f v else v) :: modifyC rest k f

/-- The fields of a Tja object after _parse finishes. -/
structure ParsedChart where
  title : Option String
  subtitle : Option String
  title_ja : Option String
  subtitle_ja : Option String
  wave : Option String
  offset : Option ℚ
  courses : Courses
deriving Repr, DecidableEq

/-- The scanner state during _parse: the chart fields together with the
    local accumulator variables of the loop. -/
structure PState where
  title : Option String
  subtitle : Option String
  title_ja : Option String
  subtitle_ja : Option String
  wave : Option String
  offset : Option ℚ
  courses : Courses
  current_course : Option String
  current_exams : List ExamRecord
  current_songs : List SongRecord
  in_song_section : Bool
deriving Repr, DecidableEq

/-- The state at the top of _parse. -/
def initState : PState :=
  { title := none, subtitle := none, title_ja := none, subtitle_ja := none,
    wave := none, offset := none, courses := [], current_course := none,
    current_exams := [], current_songs := [], in_song_section := false }

/-- The routing decision _parse takes for one raw line, in the priority
    order of the Python if-cascade. -/
inductive LineKind where
  | blank
  | nextsong (parts : List String)
  | startMark
  | endMark
  | keyval (key val : String)
  | bare (line : String)
deriving Repr, DecidableEq

/-- Classify one raw line exactly as the _parse loop dispatches it:
    strip; skip blanks; #NEXTSONG, #START, #END case-insensitive prefixes;
    then key:value on the first colon; otherwise a bare line. -/
def classify (raw : String) : LineKind :=
  let line := stripL raw.toList
  if line.isEmpty then .blank
  else if listStarts (line.map Char.toUpper) "#NEXTSONG".toList then
    .nextsong ((splitOnChar ',' (stripL (line.drop 9))).map String.mk)
  else if listStarts (line.map Char.toUpper) "#START".toList then .startMark
  else if listStarts (line.map Char.toUpper) "#END".toList then .endMark
  else if line.any (fun c => c == ':') then
    let k := line.takeWhile (fun c => !(c == ':'))
    let v := line.drop (k.length + 1)
    .keyval (String.mk ((stripL k).map Char.toUpper)) (String.mk (stripL v))
  else .bare (String.mk line)

/-- The offset field of a #NEXTSONG line: parts[4] if present and nonblank
    (a malformed value is a propagating failure), else 0. -/
def nsOffset? (parts : List String) : Option ℚ :=
  if 4 < parts.length then
    let p := pyStrip (parts.getD 4 "")
    if p = "" then some 0 else pyFloat? p
  else some 0

/-- The scoreInit field of a #NEXTSONG line: parts[5] if present and
    nonblank (a malformed value is a propagating failure), else 0. -/
def nsScore? (parts : List String) : Option Int :=
  if 5 < parts.length then
    let p := pyStrip (parts.getD 5 "")
    if p = "" then some 0 else pyInt? p
  else some 0

/-- Build song_info from the comma fields of a #NEXTSONG line; none models
    the uncaught ValueError from float()/int(). -/
def nextsongRecord? (parts : List String) : Option SongRecord :=
  match nsOffset? parts, nsScore? parts with
  | some o, some sc =>
    some { title := pyStrip (parts.getD 0 ""), artist := pyStrip (parts.getD 1 ""),
           genre := pyStrip (parts.getD 2 ""), wave := pyStrip (parts.getD 3 ""),
           offset := o, scoreInit := sc }
  | _, _ => none

/-- The numeric id carried by an EXAM1..EXAM4 key (int(key[-1])). -/
def examId (key : String) : Nat :=
  if key = "EXAM1" then 1 else if key = "EXAM2" then 2
  else if key = "EXAM3" then 3 else 4

/-- One pass threshold of an EXAMn value: blank means 0, otherwise a strict
    int parse whose failure is reported to the caller. -/
def examPass (p : String) : Option Int :=
  if p = "" then some 0 else pyInt? p

/-- The red/gold pass pair of an EXAMn value: the try block around the two
    int() calls, whose shared except clause zeroes BOTH passes as soon as
    either non-blank field fails to parse. -/
def examRG (val : String) : Int × Int :=
  match examPass (pyStrip ((splitStr ',' val).getD 1 "")),
        examPass (pyStrip ((splitStr ',' val).getD 2 "")) with
  | some r, some g => (r, g)
  | _, _ => (0, 0)

/-- Build exam_data from an EXAMn value: needs at least three comma fields
    (otherwise the line is ignored); the optional fourth field is the scope,
    defaulting to "l". -/
def examRecord? (key val : String) : Option ExamRecord :=
  if 3 ≤ (splitStr ',' val).length then
    some { id := examId key,
           type := asciiLower (pyStrip ((splitStr ',' val).getD 0 "")),
           red_pass := (examRG val).1, gold_pass := (examRG val).2,
           scope := if 3 < (splitStr ',' val).length then
                      asciiLower (pyStrip ((splitStr ',' val).getD 3 ""))
                    else "l" }
  else none

/-- The star rating of a LEVEL value: int of the first whitespace-delimited
    token, or unset. -/
def levelStars (val : String) : Option Int :=
  pyInt? (String.mk (val.toList.takeWhile (fun c => !wsChar c)))

/-- The fixed COURSE alias table (course_map in _parse). -/
def courseMap (v : String) : Option String :=
  if v = "EASY" then some "easy"
  else if v = "NORMAL" then some "normal"
  else if v = "HARD" then some "hard"
  else if v = "ONI" then some "oni"
  else if v = "EDIT" then some "ura"
  else if v = "URA" then some "ura"
  else if v = "DAN" then some "dan"
  else if v = "TOWER" then some "tower"
  else none

/-- Commit the pending exam/song buffers into the active course's record,
    exactly the "save previous course data" block of _parse (also run once
    more at end of input). -/
def commitCourses (s : PState) : Courses :=
  match s.current_course with
  | none => s.courses
  | some c =>
    if containsC s.courses c then
      let cs1 :=
        match s.current_exams with
        | [] => s.courses
        | es => modifyC s.courses c (fun r => { r with exams := some es })
      match s.current_songs with
      | [] => cs1
      | sg => modifyC cs1 c (fun r => { r with songs := some sg })
    else s.courses

/-- The key:value branch of the _parse cascade. -/
def applyKV (s : PState) (key val : String) : PState :=
  if key = "TITLE" then { s with title := if val = "" then none else some val }
  else if key = "TITLEJA" then { s with title_ja := if val = "" then none else some val }
  else if key = "SUBTITLE" then { s with subtitle := if val = "" then none else some val }
  else if key = "SUBTITLEJA" then { s with subtitle_ja := if val = "" then none else some val }
  else if key = "WAVE" then { s with wave := if val = "" then none else some val }
  else if key = "OFFSET" then { s with offset := pyFloat? val }
  else if key = "COURSE" then
    { s with
      courses :=
        match courseMap (asciiUpper (pyStrip val)) with
        | some c =>
          if containsC (commitCourses s) c then commitCourses s
          else commitCourses s ++ [(c, { stars := none, branch := false })]
        | none => commitCourses s,
      current_course := courseMap (asciiUpper (pyStrip val)),
      current_exams := [], current_songs := [] }
  else if key = "LEVEL" then
    match s.current_course with
    | some c => { s with courses := modifyC s.courses c (fun r => { r with stars := levelStars val }) }
    | none => s
  else if key = "EXAM1" ∨ key = "EXAM2" ∨ key = "EXAM3" ∨ key = "EXAM4" then
    match s.current_course with
    | some _ =>
      match examRecord? key val with
      | some e => { s with current_exams := s.current_exams ++ [e] }
      | none => s
    | none => s
  else s

/-- Process one raw line of the input; the error models the uncaught
    ValueError a malformed #NEXTSONG numeric field raises. -/
def stepLine (s : PState) (raw : String) : Except Unit PState :=
  match classify raw with
  | .blank => .ok s
  | .nextsong parts =>
    if 4 ≤ parts.length then
      match nextsongRecord? parts with
      | some rec => .ok { s with current_songs := s.current_songs ++ [rec] }
      | none => .error ()
    else .ok s
  | .startMark => .ok { s with in_song_section := true }
  | .endMark => .ok { s with in_song_section := false }
  | .keyval k v => .ok (applyKV s k v)
  | .bare line =>
    match s.current_course with
    | some c =>
      if listStarts line.toList "BRANCHSTART".toList ||
         listStarts line.toList "#BRANCHSTART".toList then
        .ok { s with courses := modifyC s.courses c (fun r => { r with branch := true }) }
      else .ok s
    | none => .ok s

/-- The _parse loop over a list of raw lines. -/
def runLines (s : PState) : List String → Except Unit PState
  | [] => .ok s
  | l :: ls =>
    match stepLine s l with
    | .ok s' => runLines s' ls
    | .error e => .error e

/-- The end-of-input commit and the final object fields. -/
def finishState (s : PState) : ParsedChart :=
  { title := s.title, subtitle := s.subtitle, title_ja := s.title_ja,
    subtitle_ja := s.subtitle_ja, wave := s.wave, offset := s.offset,
    courses := commitCourses s }

/-- _parse on an already-split line list. -/
def parseLines (ls : List String) : Except Unit ParsedChart :=
  (runLines initState ls).map finishState

/-- Tja(text): split on newlines and run the scanner. -/
def tjaParse (text : String) : Except Unit ParsedChart :=
  parseLines (splitStr '\n' text)

/-- os.path.basename on a POSIX path: the part after the last slash. -/
def basename (p : String) : String := (splitStr '/' p).getLastD p

/-- The extension part of os.path.splitext on a name without path
    separators: the suffix from the last dot, unless every character in
    front of that dot is itself a dot. -/
def splitextExt (b : String) : String :=
  let r := b.toList.reverse
  let e := r.takeWhile (fun c => !(c == '.'))
  match r.drop e.length with
  | [] => ""
  | _ :: pre => if pre.any (fun c => !(c == '.')) then String.mk ('.' :: e.reverse) else ""

/-- Python a or b on optional strings: a when it is a nonempty string,
    otherwise b. -/
def pyOr (a b : Option String) : Option String :=
  match a with
  | some s => if s = "" then b else some s
  | none => b

/-- The five-slot language sub-object of the output document. -/
structure LangMap where
  ja : Option String
  en : Option String
  cn : Option String
  tw : Option String
  ko : Option String
deriving Repr, DecidableEq

/-- The flat output document produced by Tja.to_mongo. -/
structure MongoDoc where
  id : String
  type : String
  title : Option String
  subtitle : Option String
  title_lang : LangMap
  subtitle_lang : LangMap
  courses : List (String × Option CourseRecord)
  enabled : Bool
  category_id : Option String
  music_type : String
  offset : Int
  skin_id : Option String
  preview : Int
  volume : ℚ
  maker_id : Option String
  hash : Option String
  order : String
  created_ns : Int
deriving Repr, DecidableEq

/-- The ext computation at the top of to_mongo (lines 141-148): basename of
    the wave field, its splitext extension with the leading dots stripped and
    lower-cased, falling back to "mp3"; an unset or empty wave (falsy in
    Python) also falls back. -/
def toMongoExt (wave : Option String) : String :=
  let ext : String :=
    match wave with
    | some w =>
      if w ≠ "" then
        let e := splitextExt (basename w)
        if e ≠ "" then asciiLower (String.mk (e.toList.dropWhile (fun c => c == '.'))) else ""
      else ""
    | none => ""
  if ext = "" then "mp3" else ext

/-- The fixed-order seven-key course table of the output document. -/
def coursesOut (cs : Courses) : List (String × Option CourseRecord) :=
  ["easy", "normal", "hard", "oni", "ura", "dan", "tower"].map (fun n => (n, getCourse cs n))

/-- Tja.to_mongo: project the parsed chart plus the two caller-supplied
    identifiers into the output document. -/
def to_mongo (ch : ParsedChart) (song_id : String) (created_ns : Int) : MongoDoc :=
  { id := song_id, type := "tja", title := ch.title, subtitle := ch.subtitle,
    title_lang := { ja := pyOr ch.title_ja ch.title, en := none,
                    cn := pyOr ch.title_ja none, tw := none, ko := none },
    subtitle_lang := { ja := pyOr ch.subtitle_ja ch.subtitle, en := none,
                       cn := pyOr ch.subtitle_ja none, tw := none, ko := none },
    courses := coursesOut ch.courses, enabled := false, category_id := none,
    music_type := toMongoExt ch.wave, offset := 0, skin_id := none, preview := 0,
    volume := 1, maker_id := none, hash := none, order := song_id,
    created_ns := created_ns }

/-- Follows the spec's wording for the Document Projector's audio extension:
    derive the lower-cased extension token of the audio reference's basename,
    stripped of its leading separator; when no non-empty extension token is
    derivable, the fixed fallback token "mp3" is used. -/
def musicTypeSpec (wave : Option String) : String :=
  match wave with
  | some w =>
    let tok := asciiLower (String.mk ((splitextExt (basename w)).toList.dropWhile (fun c => c == '.')))
    if tok = "" then "mp3" else tok
  | none => "mp3"

/-- Is the line routed to the COURSE branch? -/
def isCourseLine (l : String) : Bool :=
  match classify l with
  | .keyval k _ => k == "COURSE"
  | _ => false

/-- Is the line routed to the LEVEL branch? -/
def isLevelLine (l : String) : Bool :=
  match classify l with
  | .keyval k _ => k == "LEVEL"
  | _ => false

/-- Is the line routed to one of the EXAM1..EXAM4 branches? -/
def isExamLine (l : String) : Bool :=
  match classify l with
  | .keyval k _ => k == "EXAM1" || k == "EXAM2" || k == "EXAM3" || k == "EXAM4"
  | _ => false

/-- Is the line a bare branch-start marker line? -/
def isBranchLine (l : String) : Bool :=
  match classify l with
  | .bare line => listStarts line.toList "BRANCHSTART".toList ||
                  listStarts line.toList "#BRANCHSTART".toList
  | _ => false

/-- Does the line abort the parse (the #NEXTSONG hard-failure path)? -/
def nsAborts (l : String) : Bool :=
  match classify l with
  | .nextsong parts => 4 ≤ parts.length && (nextsongRecord? parts).isNone
  | _ => false

/-- Is the line a #NEXTSONG line that does not abort? -/
def goodNextsongLine (l : String) : Bool :=
  match classify l with
  | .nextsong parts => !(4 ≤ parts.length && (nextsongRecord? parts).isNone)
  | _ => false

/- ------------------------------------------------------------------ -/
/- Association-list and commit lemmas.                                 -/
/- ------------------------------------------------------------------ -/

theorem getCourse_modifyC_self (cs : Courses) (k : String) (f : CourseRecord → CourseRecord) :
    getCourse (modifyC cs k f) k = (getCourse cs k).map f := by
  induction cs with
  | nil => rfl
  | cons p rest ih =>
    obtain ⟨k', v⟩ := p
    by_cases h : k' = k <;> simp [modifyC, getCourse, h, ih]

theorem getCourse_modifyC_other (cs : Courses) (k c : String)
    (f : CourseRecord → CourseRecord) (h : c ≠ k) :
    getCourse (modifyC cs k f) c = getCourse cs c := by
  induction cs with
  | nil => rfl
  | cons p rest ih =>
    obtain ⟨k', v⟩ := p
    by_cases h1 : k' = c
    · subst h1
      have h2 : k' ≠ k := fun e => h (e ▸ rfl)
      simp [modifyC, getCourse, h2]
    · by_cases h2 : k' = k <;> simp [modifyC, getCourse, h1, h2, Ne.symm h, ih]

theorem containsC_of_get {cs : Courses} {c : String} {r : CourseRecord}
    (h : getCourse cs c = some r) : containsC cs c = true := by
  induction cs with
  | nil => simp [getCourse] at h
  | cons p rest ih =>
    obtain ⟨k', v⟩ := p
    by_cases h1 : k' = c
    · simp [containsC, h1]
    · simp [getCourse, h1] at h
      simp [containsC, h1, ih h]

theorem getCourse_append_of_get {cs ds : Courses} {c : String} {r : CourseRecord}
    (h : getCourse cs c = some r) : getCourse (cs ++ ds) c = some r := by
  induction cs with
  | nil => simp [getCourse] at h
  | cons p rest ih =>
    obtain ⟨k', v⟩ := p
    by_cases h1 : k' = c <;> simp [getCourse, h1] at h ⊢
    · exact h
    · exact ih h

theorem commitCourses_of_none {s : PState} (h : s.current_course = none) :
    commitCourses s = s.courses := by
  unfold commitCourses
  rw [h]

/-- modifyC with a stars/branch-preserving update keeps stars/branch of
    every present key. -/
theorem getCourse_modifyC_sb (cs : Courses) (k : String)
    (f : CourseRecord → CourseRecord)
    (hf : ∀ r, (f r).stars = r.stars ∧ (f r).branch = r.branch)
    {c : String} {rec : CourseRecord} (h : getCourse cs c = some rec) :
    ∃ rec', getCourse (modifyC cs k f) c = some rec' ∧
      rec'.stars = rec.stars ∧ rec'.branch = rec.branch := by
  by_cases e : c = k
  · subst e
    refine ⟨f rec, ?_, (hf rec).1, (hf rec).2⟩
    rw [getCourse_modifyC_self, h]
    rfl
  · exact ⟨rec, by rw [getCourse_modifyC_other _ _ _ _ e]; exact h, rfl, rfl⟩

/-- The commit block only ever writes the exams/songs fields, so it keeps
    the stars and branch of every present course. -/
theorem commitCourses_preserves_sb {s : PState} {c : String} {rec : CourseRecord}
    (h : getCourse s.courses c = some rec) :
    ∃ rec', getCourse (commitCourses s) c = some rec' ∧
      rec'.stars = rec.stars ∧ rec'.branch = rec.branch := by
  unfold commitCourses
  cases hcc : s.current_course with
  | none => exact ⟨rec, h, rfl, rfl⟩
  | some c' =>
    dsimp only
    by_cases hct : containsC s.courses c'
    · rw [if_pos hct]
      rcases hce : s.current_exams with _ | ⟨e, es⟩ <;>
        rcases hcs : s.current_songs with _ | ⟨g, gs⟩ <;> simp only [hce, hcs]
      · exact ⟨rec, h, rfl, rfl⟩
      · exact getCourse_modifyC_sb _ c'
          (fun r => { r with songs := some (g :: gs) }) (fun r => ⟨rfl, rfl⟩) h
      · exact getCourse_modifyC_sb _ c'
          (fun r => { r with exams := some (e :: es) }) (fun r => ⟨rfl, rfl⟩) h
      · obtain ⟨r1, hr1, hs1, hb1⟩ :=
          getCourse_modifyC_sb s.courses c'
            (fun r => { r with exams := some (e :: es) }) (fun r => ⟨rfl, rfl⟩) h
        obtain ⟨r2, hr2, hs2, hb2⟩ :=
          getCourse_modifyC_sb _ c'
            (fun r => { r with songs := some (g :: gs) }) (fun r => ⟨rfl, rfl⟩) hr1
        exact ⟨r2, hr2, hs2.trans hs1, hb2.trans hb1⟩
    · rw [if_neg hct]
      exact ⟨rec, h, rfl, rfl⟩

theorem runLines_append (s : PState) (as bs : List String) :
    runLines s (as ++ bs) =
      match runLines s as with
      | .ok s' => runLines s' bs
      | .error e => .error e := by
  induction as generalizing s with
  | nil => rfl
  | cons l ls ih =>
    simp only [List.cons_append, runLines]
    cases stepLine s l <;> simp [ih]

/- ------------------------------------------------------------------ -/
/- Shape lemmas for the key:value dispatch.                            -/
/- ------------------------------------------------------------------ -/

theorem applyKV_course_eq (s : PState) (v : String) :
    applyKV s "COURSE" v =
      { s with
        courses :=
          match courseMap (asciiUpper (pyStrip v)) with
          | some c =>
            if containsC (commitCourses s) c then commitCourses s
            else commitCourses s ++ [(c, { stars := none, branch := false })]
          | none => commitCourses s,
        current_course := courseMap (asciiUpper (pyStrip v)),
        current_exams := [], current_songs := [] } := rfl

theorem applyKV_level_eq (s : PState) (v : String) :
    applyKV s "LEVEL" v =
      match s.current_course with
      | some c => { s with courses := modifyC s.courses c (fun r => { r with stars := levelStars v }) }
      | none => s := rfl

/-- Every key other than COURSE and LEVEL leaves the courses mapping alone. -/
theorem applyKV_courses_other (s : PState) (k v : String)
    (hkc : k ≠ "COURSE") (hkl : k ≠ "LEVEL") :
    (applyKV s k v).courses = s.courses := by
  by_cases h1 : k = "TITLE"
  · simp [applyKV, h1]
  by_cases h2 : k = "TITLEJA"
  · simp [applyKV, h1, h2]
  by_cases h3 : k = "SUBTITLE"
  · simp [applyKV, h1, h2, h3]
  by_cases h4 : k = "SUBTITLEJA"
  · simp [applyKV, h1, h2, h3, h4]
  by_cases h5 : k = "WAVE"
  · simp [applyKV, h1, h2, h3, h4, h5]
  by_cases h6 : k = "OFFSET"
  · simp [applyKV, h1, h2, h3, h4, h5, h6]
  simp only [applyKV, if_neg h1, if_neg h2, if_neg h3, if_neg h4, if_neg h5, if_neg h6,
    if_neg hkc, if_neg hkl]
  by_cases h7 : k = "EXAM1" ∨ k = "EXAM2" ∨ k = "EXAM3" ∨ k = "EXAM4"
  · rw [if_pos h7]
    cases hcc : s.current_course
    · rfl
    · dsimp only
      cases examRecord? k v <;> rfl
  · rw [if_neg h7]

/-- One scanner step keeps every already-present course record's stars and
    branch, except that a LEVEL line may rewrite stars and a branch-start
    marker line may rewrite branch. -/
theorem stepLine_preserves_sb {s : PState} {l : String} {s' : PState}
    (h : stepLine s l = .ok s') {c : String} {rec : CourseRecord}
    (hg : getCourse s.courses c = some rec) :
    ∃ rec', getCourse s'.courses c = some rec' ∧
      (isLevelLine l = false → rec'.stars = rec.stars) ∧
      (isBranchLine l = false → rec'.branch = rec.branch) := by
  unfold stepLine at h
  cases hcl : classify l <;> rw [hcl] at h <;> dsimp only at h
  case blank =>
    injection h with h
    subst h
    exact ⟨rec, hg, fun _ => rfl, fun _ => rfl⟩
  case nextsong parts =>
    split at h
    · split at h
      · injection h with h
        subst h
        exact ⟨rec, hg, fun _ => rfl, fun _ => rfl⟩
      · exact absurd h (by simp)
    · injection h with h
      subst h
      exact ⟨rec, hg, fun _ => rfl, fun _ => rfl⟩
  case startMark =>
    injection h with h
    subst h
    exact ⟨rec, hg, fun _ => rfl, fun _ => rfl⟩
  case endMark =>
    injection h with h
    subst h
    exact ⟨rec, hg, fun _ => rfl, fun _ => rfl⟩
  case keyval k v =>
    injection h with h
    subst h
    by_cases hk1 : k = "COURSE"
    · subst hk1
      rw [applyKV_course_eq]
      obtain ⟨r1, hr1, hs1, hb1⟩ := commitCourses_preserves_sb hg
      cases hnc : courseMap (asciiUpper (pyStrip v)) with
      | none => exact ⟨r1, hr1, fun _ => hs1, fun _ => hb1⟩
      | some c2 =>
        dsimp only
        by_cases hc2 : containsC (commitCourses s) c2
        · rw [if_pos hc2]
          exact ⟨r1, hr1, fun _ => hs1, fun _ => hb1⟩
        · rw [if_neg hc2]
          exact ⟨r1, getCourse_append_of_get hr1, fun _ => hs1, fun _ => hb1⟩
    · by_cases hk2 : k = "LEVEL"
      · subst hk2
        rw [applyKV_level_eq]
        cases hcc : s.current_course with
        | none => exact ⟨rec, hg, fun _ => rfl, fun _ => rfl⟩
        | some c'' =>
          dsimp only
          by_cases hcx : c = c''
          · subst hcx
            refine ⟨{ rec with stars := levelStars v }, ?_, ?_, fun _ => rfl⟩
            · rw [getCourse_modifyC_self, hg]
              rfl
            · intro hfalse
              have htrue : isLevelLine l = true := by simp [isLevelLine, hcl]
              rw [htrue] at hfalse
              cases hfalse
          · rw [getCourse_modifyC_other _ _ _ _ hcx]
            exact ⟨rec, hg, fun _ => rfl, fun _ => rfl⟩
      · rw [applyKV_courses_other s k v hk1 hk2]
        exact ⟨rec, hg, fun _ => rfl, fun _ => rfl⟩
  case bare line =>
    cases hcc : s.current_course with
    | none =>
      rw [hcc] at h
      injection h with h
      subst h
      exact ⟨rec, hg, fun _ => rfl, fun _ => rfl⟩
    | some c' =>
      rw [hcc] at h
      dsimp only at h
      split at h
      · injection h with h
        subst h
        next hpre =>
        by_cases hcx : c = c'
        · subst hcx
          refine ⟨{ rec with branch := true }, ?_, fun _ => rfl, ?_⟩
          · rw [getCourse_modifyC_self, hg]
            rfl
          · intro hfalse
            have htrue : isBranchLine l = true := by
              simp only [isBranchLine, hcl]
              exact hpre
            rw [htrue] at hfalse
            cases hfalse
        · rw [getCourse_modifyC_other _ _ _ _ hcx]
          exact ⟨rec, hg, fun _ => rfl, fun _ => rfl⟩
      · injection h with h
        subst h
        exact ⟨rec, hg, fun _ => rfl, fun _ => rfl⟩

/- ------------------------------------------------------------------ -/
/- Behaviour of a run that never meets a recognised COURSE line.       -/
/- ------------------------------------------------------------------ -/

/-- A line whose removal cannot matter while no course is active: an EXAM
    key line, or a #NEXTSONG line that does not abort. -/
def droppableNC (l : String) : Bool := isExamLine l || goodNextsongLine l

/-- Two scanner states that agree on everything except the pending
    exam/song buffers, both with no active course. -/
structure RelNC (s1 s2 : PState) : Prop where
  title : s1.title = s2.title
  subtitle : s1.subtitle = s2.subtitle
  title_ja : s1.title_ja = s2.title_ja
  subtitle_ja : s1.subtitle_ja = s2.subtitle_ja
  wave : s1.wave = s2.wave
  offset : s1.offset = s2.offset
  courses : s1.courses = s2.courses
  iss : s1.in_song_section = s2.in_song_section
  cc1 : s1.current_course = none
  cc2 : s2.current_course = none

theorem RelNC.trans {s1 s2 s3 : PState} (a : RelNC s1 s2) (b : RelNC s2 s3) : RelNC s1 s3 :=
  ⟨a.title.trans b.title, a.subtitle.trans b.subtitle, a.title_ja.trans b.title_ja,
   a.subtitle_ja.trans b.subtitle_ja, a.wave.trans b.wave, a.offset.trans b.offset,
   a.courses.trans b.courses, a.iss.trans b.iss, a.cc1, b.cc2⟩

theorem RelNC.refl_of_none {s : PState} (h : s.current_course = none) : RelNC s s :=
  ⟨rfl, rfl, rfl, rfl, rfl, rfl, rfl, rfl, h, h⟩

/-- RelNC states finish to the same chart: the end-of-input commit is a
    no-op without an active course, and buffers do not appear in the chart. -/
theorem finishState_relNC {s1 s2 : PState} (h : RelNC s1 s2) :
    finishState s1 = finishState s2 := by
  unfold finishState
  rw [commitCourses_of_none h.cc1, commitCourses_of_none h.cc2,
      h.title, h.subtitle, h.title_ja, h.subtitle_ja, h.wave, h.offset, h.courses]

theorem applyKV_level_none {s : PState} (v : String) (hcc : s.current_course = none) :
    applyKV s "LEVEL" v = s := by
  rw [applyKV_level_eq, hcc]

theorem applyKV_exam_none {s : PState} {k : String} (v : String)
    (hk : k = "EXAM1" ∨ k = "EXAM2" ∨ k = "EXAM3" ∨ k = "EXAM4")
    (hcc : s.current_course = none) : applyKV s k v = s := by
  rcases hk with h | h | h | h <;> subst h <;> simp [applyKV, hcc]

theorem applyKV_unknown_id (s : PState) (k v : String)
    (h1 : k ≠ "TITLE") (h2 : k ≠ "TITLEJA") (h3 : k ≠ "SUBTITLE") (h4 : k ≠ "SUBTITLEJA")
    (h5 : k ≠ "WAVE") (h6 : k ≠ "OFFSET") (h7 : k ≠ "COURSE") (h8 : k ≠ "LEVEL")
    (h9 : ¬(k = "EXAM1" ∨ k = "EXAM2" ∨ k = "EXAM3" ∨ k = "EXAM4")) :
    applyKV s k v = s := by
  simp only [applyKV, if_neg h1, if_neg h2, if_neg h3, if_neg h4, if_neg h5, if_neg h6,
    if_neg h7, if_neg h8, if_neg h9]

/-- Any key other than COURSE leaves the active-course register alone. -/
theorem applyKV_cc_of_ne_course (s : PState) (k v : String) (hkc : k ≠ "COURSE") :
    (applyKV s k v).current_course = s.current_course := by
  by_cases h1 : k = "TITLE"
  · simp [applyKV, h1]
  by_cases h2 : k = "TITLEJA"
  · simp [applyKV, h1, h2]
  by_cases h3 : k = "SUBTITLE"
  · simp [applyKV, h1, h2, h3]
  by_cases h4 : k = "SUBTITLEJA"
  · simp [applyKV, h1, h2, h3, h4]
  by_cases h5 : k = "WAVE"
  · simp [applyKV, h1, h2, h3, h4, h5]
  by_cases h6 : k = "OFFSET"
  · simp [applyKV, h1, h2, h3, h4, h5, h6]
  by_cases h8 : k = "LEVEL"
  · subst h8
    rw [applyKV_level_eq]
    cases hcc : s.current_course <;> simp [hcc]
  by_cases h9 : k = "EXAM1" ∨ k = "EXAM2" ∨ k = "EXAM3" ∨ k = "EXAM4"
  · simp only [applyKV, if_neg h1, if_neg h2, if_neg h3, if_neg h4, if_neg h5, if_neg h6,
      if_neg hkc, if_neg h8, if_pos h9]
    cases hcc : s.current_course
    · simp [hcc]
    · dsimp only
      cases examRecord? k v <;> simp [hcc]
  · rw [applyKV_unknown_id s k v h1 h2 h3 h4 h5 h6 hkc h8 h9]

/-- A droppable line steps without error and only moves the buffers, when
    no course is active. -/
theorem stepLine_droppable {s : PState} {l : String}
    (hd : droppableNC l = true) (hcc : s.current_course = none) :
    ∃ s', stepLine s l = .ok s' ∧ RelNC s s' := by
  cases hcl : classify l
  case blank =>
    exfalso
    simp [droppableNC, isExamLine, goodNextsongLine, hcl] at hd
  case startMark =>
    exfalso
    simp [droppableNC, isExamLine, goodNextsongLine, hcl] at hd
  case endMark =>
    exfalso
    simp [droppableNC, isExamLine, goodNextsongLine, hcl] at hd
  case bare line =>
    exfalso
    simp [droppableNC, isExamLine, goodNextsongLine, hcl] at hd
  case nextsong parts =>
    by_cases hlen : 4 ≤ parts.length
    · cases hrec : nextsongRecord? parts with
      | none =>
        exfalso
        simp [droppableNC, isExamLine, goodNextsongLine, hcl, hlen, hrec] at hd
      | some r =>
        refine ⟨{ s with current_songs := s.current_songs ++ [r] }, ?_, ?_⟩
        · simp [stepLine, hcl, hlen, hrec]
        · exact ⟨rfl, rfl, rfl, rfl, rfl, rfl, rfl, rfl, hcc, hcc⟩
    · refine ⟨s, ?_, RelNC.refl_of_none hcc⟩
      simp [stepLine, hcl, hlen]
  case keyval k v =>
    have hk : k = "EXAM1" ∨ k = "EXAM2" ∨ k = "EXAM3" ∨ k = "EXAM4" := by
      have hd' := hd
      simp [droppableNC, isExamLine, goodNextsongLine, hcl] at hd'
      tauto
    refine ⟨s, ?_, RelNC.refl_of_none hcc⟩
    simp [stepLine, hcl, applyKV_exam_none v hk hcc]

/-- Pairwise stepping of RelNC states through any non-COURSE line: both
    fail together or both succeed into RelNC states. -/
theorem stepLine_nc {l : String} (hnc : isCourseLine l = false) {s1 s2 : PState}
    (h : RelNC s1 s2) :
    (stepLine s1 l = .error () ∧ stepLine s2 l = .error ()) ∨
    (∃ s1' s2', stepLine s1 l = .ok s1' ∧ stepLine s2 l = .ok s2' ∧ RelNC s1' s2') := by
  cases hcl : classify l
  case blank =>
    right
    exact ⟨s1, s2, by simp [stepLine, hcl], by simp [stepLine, hcl], h⟩
  case startMark =>
    right
    refine ⟨{ s1 with in_song_section := true }, { s2 with in_song_section := true },
      by simp [stepLine, hcl], by simp [stepLine, hcl], ?_⟩
    exact ⟨h.title, h.subtitle, h.title_ja, h.subtitle_ja, h.wave, h.offset, h.courses,
      rfl, h.cc1, h.cc2⟩
  case endMark =>
    right
    refine ⟨{ s1 with in_song_section := false }, { s2 with in_song_section := false },
      by simp [stepLine, hcl], by simp [stepLine, hcl], ?_⟩
    exact ⟨h.title, h.subtitle, h.title_ja, h.subtitle_ja, h.wave, h.offset, h.courses,
      rfl, h.cc1, h.cc2⟩
  case bare line =>
    right
    refine ⟨s1, s2, ?_, ?_, h⟩ <;> simp [stepLine, hcl, h.cc1, h.cc2]
  case nextsong parts =>
    by_cases hlen : 4 ≤ parts.length
    · cases hrec : nextsongRecord? parts with
      | none =>
        left
        constructor <;> simp [stepLine, hcl, hlen, hrec]
      | some r =>
        right
        refine ⟨{ s1 with current_songs := s1.current_songs ++ [r] },
          { s2 with current_songs := s2.current_songs ++ [r] },
          by simp [stepLine, hcl, hlen, hrec], by simp [stepLine, hcl, hlen, hrec], ?_⟩
        exact ⟨h.title, h.subtitle, h.title_ja, h.subtitle_ja, h.wave, h.offset, h.courses,
          h.iss, h.cc1, h.cc2⟩
    · right
      refine ⟨s1, s2, ?_, ?_, h⟩ <;> simp [stepLine, hcl, hlen]
  case keyval k v =>
    have hkc : k ≠ "COURSE" := by
      intro e
      rw [e] at hcl
      simp [isCourseLine, hcl] at hnc
    right
    refine ⟨applyKV s1 k v, applyKV s2 k v, by simp [stepLine, hcl], by simp [stepLine, hcl], ?_⟩
    by_cases h1 : k = "TITLE"
    · subst h1
      exact ⟨by simp [applyKV, h.title], by simp [applyKV, h.subtitle],
        by simp [applyKV, h.title_ja], by simp [applyKV, h.subtitle_ja],
        by simp [applyKV, h.wave], by simp [applyKV, h.offset],
        by simp [applyKV, h.courses], by simp [applyKV, h.iss],
        by simp [applyKV, h.cc1], by simp [applyKV, h.cc2]⟩
    by_cases h2 : k = "TITLEJA"
    · subst h2
      exact ⟨by simp [applyKV, h.title], by simp [applyKV, h.subtitle],
        by simp [applyKV, h.title_ja], by simp [applyKV, h.subtitle_ja],
        by simp [applyKV, h.wave], by simp [applyKV, h.offset],
        by simp [applyKV, h.courses], by simp [applyKV, h.iss],
        by simp [applyKV, h.cc1], by simp [applyKV, h.cc2]⟩
    by_cases h3 : k = "SUBTITLE"
    · subst h3
      exact ⟨by simp [applyKV, h.title], by simp [applyKV, h.subtitle],
        by simp [applyKV, h.title_ja], by simp [applyKV, h.subtitle_ja],
        by simp [applyKV, h.wave], by simp [applyKV, h.offset],
        by simp [applyKV, h.courses], by simp [applyKV, h.iss],
        by simp [applyKV, h.cc1], by simp [applyKV, h.cc2]⟩
    by_cases h4 : k = "SUBTITLEJA"
    · subst h4
      exact ⟨by simp [applyKV, h.title], by simp [applyKV, h.subtitle],
        by simp [applyKV, h.title_ja], by simp [applyKV, h.subtitle_ja],
        by simp [applyKV, h.wave], by simp [applyKV, h.offset],
        by simp [applyKV, h.courses], by simp [applyKV, h.iss],
        by simp [applyKV, h.cc1], by simp [applyKV, h.cc2]⟩
    by_cases h5 : k = "WAVE"
    · subst h5
      exact ⟨by simp [applyKV, h.title], by simp [applyKV, h.subtitle],
        by simp [applyKV, h.title_ja], by simp [applyKV, h.subtitle_ja],
        by simp [applyKV, h.wave], by simp [applyKV, h.offset],
        by simp [applyKV, h.courses], by simp [applyKV, h.iss],
        by simp [applyKV, h.cc1], by simp [applyKV, h.cc2]⟩
    by_cases h6 : k = "OFFSET"
    · subst h6
      exact ⟨by simp [applyKV, h.title], by simp [applyKV, h.subtitle],
        by simp [applyKV, h.title_ja], by simp [applyKV, h.subtitle_ja],
        by simp [applyKV, h.wave], by simp [applyKV, h.offset],
        by simp [applyKV, h.courses], by simp [applyKV, h.iss],
        by simp [applyKV, h.cc1], by simp [applyKV, h.cc2]⟩
    by_cases h8 : k = "LEVEL"
    · subst h8
      rw [applyKV_level_none v h.cc1, applyKV_level_none v h.cc2]
      exact h
    by_cases h9 : k = "EXAM1" ∨ k = "EXAM2" ∨ k = "EXAM3" ∨ k = "EXAM4"
    · rw [applyKV_exam_none v h9 h.cc1, applyKV_exam_none v h9 h.cc2]
      exact h
    · rw [applyKV_unknown_id s1 k v h1 h2 h3 h4 h5 h6 hkc h8 h9,
          applyKV_unknown_id s2 k v h1 h2 h3 h4 h5 h6 hkc h8 h9]
      exact h

/-- Stepping any non-COURSE line with no active course keeps the courses
    mapping untouched and the course register unset. -/
theorem stepLine_nc_state {l : String} (hnc : isCourseLine l = false) {s s' : PState}
    (hcc : s.current_course = none) (h : stepLine s l = .ok s') :
    s'.courses = s.courses ∧ s'.current_course = none := by
  unfold stepLine at h
  cases hcl : classify l <;> rw [hcl] at h <;> dsimp only at h
  case blank =>
    injection h with h
    subst h
    exact ⟨rfl, hcc⟩
  case nextsong parts =>
    split at h
    · split at h
      · injection h with h
        subst h
        exact ⟨rfl, hcc⟩
      · exact absurd h (by simp)
    · injection h with h
      subst h
      exact ⟨rfl, hcc⟩
  case startMark =>
    injection h with h
    subst h
    exact ⟨rfl, hcc⟩
  case endMark =>
    injection h with h
    subst h
    exact ⟨rfl, hcc⟩
  case keyval k v =>
    injection h with h
    subst h
    have hkc : k ≠ "COURSE" := by
      intro e
      rw [e] at hcl
      simp [isCourseLine, hcl] at hnc
    by_cases h8 : k = "LEVEL"
    · subst h8
      rw [applyKV_level_none v hcc]
      exact ⟨rfl, hcc⟩
    by_cases h9 : k = "EXAM1" ∨ k = "EXAM2" ∨ k = "EXAM3" ∨ k = "EXAM4"
    · rw [applyKV_exam_none v h9 hcc]
      exact ⟨rfl, hcc⟩
    · exact ⟨applyKV_courses_other s k v hkc h8,
        (applyKV_cc_of_ne_course s k v hkc).trans hcc⟩
  case bare line =>
    rw [hcc] at h
    injection h with h
    subst h
    exact ⟨rfl, hcc⟩

/-- Over a COURSE-free line list, an ok run never touches the courses
    mapping and never sets a course. -/
theorem runLines_nc_inv : ∀ (ls : List String), (∀ l ∈ ls, isCourseLine l = false) →
    ∀ s, s.current_course = none → ∀ t, runLines s ls = .ok t →
    t.courses = s.courses ∧ t.current_course = none := by
  intro ls
  induction ls with
  | nil =>
    intro _ s hcc t ht
    injection ht with ht
    subst ht
    exact ⟨rfl, hcc⟩
  | cons l ls ih =>
    intro hall s hcc t ht
    simp only [runLines] at ht
    cases hstep : stepLine s l with
    | error e =>
      rw [hstep] at ht
      cases ht
    | ok s' =>
      rw [hstep] at ht
      obtain ⟨hc1, hcc1⟩ := stepLine_nc_state (hall l (List.mem_cons_self l ls)) hcc hstep
      obtain ⟨hc2, hcc2⟩ := ih (fun x hx => hall x (List.mem_cons_of_mem l hx)) s' hcc1 t ht
      exact ⟨hc2.trans hc1, hcc2⟩

/-- Over a COURSE-free line list, dropping the EXAM lines and the
    non-aborting #NEXTSONG lines leaves the run related step by step. -/
theorem runLines_nc_filter : ∀ (ls : List String), (∀ l ∈ ls, isCourseLine l = false) →
    ∀ s1 s2, RelNC s1 s2 →
    (runLines s1 (ls.filter (fun l => !droppableNC l)) = .error () ∧
      runLines s2 ls = .error ()) ∨
    (∃ t1 t2, runLines s1 (ls.filter (fun l => !droppableNC l)) = .ok t1 ∧
      runLines s2 ls = .ok t2 ∧ RelNC t1 t2) := by
  intro ls
  induction ls with
  | nil =>
    intro _ s1 s2 h
    right
    exact ⟨s1, s2, rfl, rfl, h⟩
  | cons l ls ih =>
    intro hall s1 s2 h
    have hl : isCourseLine l = false := hall l (List.mem_cons_self l ls)
    have hall' : ∀ x ∈ ls, isCourseLine x = false :=
      fun x hx => hall x (List.mem_cons_of_mem l hx)
    by_cases hd : droppableNC l = true
    · obtain ⟨s2', hstep, hrel⟩ := stepLine_droppable hd h.cc2
      have h' : RelNC s1 s2' := h.trans hrel
      have hfil : (l :: ls).filter (fun x => !droppableNC x) =
          ls.filter (fun x => !droppableNC x) := by
        simp [List.filter, hd]
      rcases ih hall' s1 s2' h' with ⟨e1, e2⟩ | ⟨t1, t2, h1, h2, hrel'⟩
      · left
        refine ⟨by rw [hfil]; exact e1, ?_⟩
        simp only [runLines, hstep]
        exact e2
      · right
        refine ⟨t1, t2, by rw [hfil]; exact h1, ?_, hrel'⟩
        simp only [runLines, hstep]
        exact h2
    · have hd' : droppableNC l = false := by
        cases hx : droppableNC l
        · rfl
        · exact absurd hx hd
      have hfil : (l :: ls).filter (fun x => !droppableNC x) =
          l :: ls.filter (fun x => !droppableNC x) := by
        simp [List.filter, hd']
      rcases stepLine_nc hl h with ⟨e1, e2⟩ | ⟨s1', s2', h1, h2, hrel'⟩
      · left
        constructor
        · rw [hfil]
          simp only [runLines, e1]
        · simp only [runLines, e2]
      · rcases ih hall' s1' s2' hrel' with ⟨e1, e2⟩ | ⟨t1, t2, hh1, hh2, hrel''⟩
        · left
          constructor
          · rw [hfil]
            simp only [runLines, h1]
            exact e1
          · simp only [runLines, h2]
            exact e2
        · right
          refine ⟨t1, t2, ?_, ?_, hrel''⟩
          · rw [hfil]
            simp only [runLines, h1]
            exact hh1
          · simp only [runLines, h2]
            exact hh2

/- ------------------------------------------------------------------ -/
/- The two numeric failure policies.                                   -/
/- ------------------------------------------------------------------ -/

/-- An unparsable present offset or scoreInit field makes the song record
    construction fail. -/
theorem nextsongRecord?_none {parts : List String}
    (hbad : nsOffset? parts = none ∨ nsScore? parts = none) :
    nextsongRecord? parts = none := by
  unfold nextsongRecord?
  rcases hbad with hb | hb
  · rw [hb]
  · rw [hb]
    cases nsOffset? parts <;> rfl

/-- A #NEXTSONG line with at least four comma fields and a failing song
    record construction fails the step from every state. -/
theorem stepLine_nextsong_abort {l : String} {parts : List String}
    (hcl : classify l = .nextsong parts) (hlen : 4 ≤ parts.length)
    (hrec : nextsongRecord? parts = none) (s : PState) :
    stepLine s l = .error () := by
  simp [stepLine, hcl, hlen, hrec]

/-- One aborting line anywhere in the list fails the whole run, from every
    start state. -/
theorem runLines_abort : ∀ (ls : List String) {l : String}, l ∈ ls → nsAborts l = true →
    ∀ s, runLines s ls = .error () := by
  intro ls
  induction ls with
  | nil =>
    intro l hl
    cases hl
  | cons x xs ih =>
    intro l hl hb s
    rcases List.mem_cons.mp hl with rfl | hmem
    · have hb' := hb
      unfold nsAborts at hb'
      cases hcl : classify l <;> rw [hcl] at hb' <;> simp at hb'
      case nextsong parts =>
        have hstep := stepLine_nextsong_abort hcl hb'.1 hb'.2 s
        simp only [runLines, hstep]
    · cases hstep : stepLine s x with
      | error e =>
        cases e
        simp only [runLines, hstep]
      | ok s' =>
        simp only [runLines, hstep]
        exact ih hmem hb s'

/-- A non-blank unparsable red or gold field zeroes both passes. -/
theorem examRG_bad {v : String}
    (hbad : (pyStrip ((splitStr ',' v).getD 1 "") ≠ "" ∧
               pyInt? (pyStrip ((splitStr ',' v).getD 1 "")) = none) ∨
            (pyStrip ((splitStr ',' v).getD 2 "") ≠ "" ∧
               pyInt? (pyStrip ((splitStr ',' v).getD 2 "")) = none)) :
    examRG v = (0, 0) := by
  unfold examRG examPass
  rcases hbad with ⟨hne, hnone⟩ | ⟨hne, hnone⟩
  · rw [if_neg hne, hnone]
  · rw [if_neg hne, hnone]
    cases (if pyStrip ((splitStr ',' v).getD 1 "") = "" then some 0
           else pyInt? (pyStrip ((splitStr ',' v).getD 1 ""))) <;> rfl

/-- An EXAM line with enough fields always yields a record, with the passes
    taken from the shared try block. -/
theorem examRecord?_of_len {k v : String} (hlen : 3 ≤ (splitStr ',' v).length) :
    examRecord? k v =
      some { id := examId k,
             type := asciiLower (pyStrip ((splitStr ',' v).getD 0 "")),
             red_pass := (examRG v).1, gold_pass := (examRG v).2,
             scope := if 3 < (splitStr ',' v).length then
                        asciiLower (pyStrip ((splitStr ',' v).getD 3 ""))
                      else "l" } := by
  unfold examRecord?
  rw [if_pos hlen]

/-- With an active course, an EXAM key line with enough fields appends its
    record to the pending exam buffer and changes nothing else. -/
theorem applyKV_exam_append {s : PState} {c : String} (hcc : s.current_course = some c)
    {k : String} (v : String)
    (hk : k = "EXAM1" ∨ k = "EXAM2" ∨ k = "EXAM3" ∨ k = "EXAM4")
    {e : ExamRecord} (hrec : examRecord? k v = some e) :
    applyKV s k v = { s with current_exams := s.current_exams ++ [e] } := by
  rcases hk with h | h | h | h <;> subst h <;> simp [applyKV, hcc, hrec]

/-- Over lines with no LEVEL line and no branch-start line, an ok run keeps
    the stars and branch of every already-present course. -/
theorem runLines_preserves_sb : ∀ (ls : List String),
    (∀ l ∈ ls, isLevelLine l = false ∧ isBranchLine l = false) →
    ∀ s t, runLines s ls = .ok t → ∀ c rec, getCourse s.courses c = some rec →
    ∃ rec', getCourse t.courses c = some rec' ∧
      rec'.stars = rec.stars ∧ rec'.branch = rec.branch := by
  intro ls
  induction ls with
  | nil =>
    intro _ s t ht c rec hg
    injection ht with ht
    subst ht
    exact ⟨rec, hg, rfl, rfl⟩
  | cons l ls ih =>
    intro hall s t ht c rec hg
    simp only [runLines] at ht
    cases hstep : stepLine s l with
    | error e =>
      rw [hstep] at ht
      cases ht
    | ok s' =>
      rw [hstep] at ht
      obtain ⟨r1, hr1, hs1, hb1⟩ := stepLine_preserves_sb hstep hg
      obtain ⟨r2, hr2, hs2, hb2⟩ :=
        ih (fun x hx => hall x (List.mem_cons_of_mem l hx)) s' t ht c r1 hr1
      have hl := hall l (List.mem_cons_self l ls)
      exact ⟨r2, hr2, hs2.trans (hs1 hl.1), hb2.trans (hb1 hl.2)⟩

/-- Flushing through a COURSE line that matches no alias and then finishing
    is the same as finishing directly: both commit the buffers once. -/
theorem finishState_flush (s : PState) :
    finishState (applyKV s "COURSE" "?") = finishState s := rfl

/- ------------------------------------------------------------------ -/
/- Claim theorems.                                                     -/
/- ------------------------------------------------------------------ -/

/-- C1: parsing the example input yields a chart whose courses mapping has
    the key oni with stars 8, branch true and the single exam record
    {id 1, type "g", red_pass 80, gold_pass 100, scope "m"}, and the key
    hard with stars 5, branch false and no exams entry. -/
theorem C1_example_parse :
    (tjaParse "TITLE:Foo\nCOURSE:ONI\nLEVEL:8 (★)\nEXAM1:g,80,100,m\nBRANCHSTART\nCOURSE:HARD\nLEVEL:5\n").map
        (fun ch => (getCourse ch.courses "oni", getCourse ch.courses "hard")) =
      .ok (some { stars := some 8, branch := true,
                  exams := some [{ id := 1, type := "g", red_pass := 80,
                                   gold_pass := 100, scope := "m" }],
                  songs := none },
           some { stars := some 5, branch := false, exams := none, songs := none }) := rfl

/-- C4: the end-of-input commit is exactly the commit a COURSE switch
    performs: appending one more COURSE line that matches no alias (which
    only flushes the buffers) never changes the parse result; and in
    particular a final course followed only by EXAM/NEXTSONG lines keeps
    those sub-records in its final record. -/
theorem C4_eof_commit_same_as_switch :
    (∀ (ls : List String) (s : PState),
        (runLines s (ls ++ ["COURSE:?"])).map finishState =
          (runLines s ls).map finishState) ∧
    ((tjaParse "COURSE:DAN\nEXAM1:g,1,2\n#NEXTSONG a,b,c,d").map
        (fun ch => getCourse ch.courses "dan") =
      .ok (some { stars := none, branch := false,
                  exams := some [{ id := 1, type := "g", red_pass := 1,
                                   gold_pass := 2, scope := "l" }],
                  songs := some [{ title := "a", artist := "b", genre := "c",
                                   wave := "d", offset := 0, scoreInit := 0 }] })) := by
  constructor
  · intro ls
    induction ls with
    | nil =>
      intro s
      exact congrArg Except.ok (finishState_flush s)
    | cons l ls ih =>
      intro s
      simp only [List.cons_append, runLines]
      cases stepLine s l
      · rfl
      · exact ih _
  · rfl

/-- C5: course-name normalisation is a stable many-to-one mapping: the
    name a COURSE line activates depends only on the directive's value and
    never on the scanner state, EDIT and URA map to the same name ura, and
    parsing COURSE:Edit then COURSE:Ura populates the single key ura. -/
theorem C5_alias_stable :
    (∀ (s : PState) (v : String),
        (applyKV s "COURSE" v).current_course = courseMap (asciiUpper (pyStrip v))) ∧
    courseMap "EDIT" = some "ura" ∧ courseMap "URA" = some "ura" ∧
    (tjaParse "COURSE:Edit\nCOURSE:Ura").map (fun ch => ch.courses.map (fun p => p.1)) =
      .ok ["ura"] :=
  ⟨fun _ _ => rfl, rfl, rfl, rfl⟩

/-- A demonstration state with the oni course active, used to witness the
    exam-side behaviour at a concrete input. -/
def examDemoState : PState :=
  { initState with current_course := some "oni",
                   courses := [("oni", { stars := none, branch := false })] }

/-- C2: a NEXTSONG line with at least 4 comma fields whose offset or
    scoreInit field is present but non-numeric fails the whole parse, for
    every input containing such a line; whereas an EXAM1..EXAM4 line under
    an active course with at least 3 comma fields and a non-numeric
    red_pass or gold_pass does not abort: it appends an exam record with
    red_pass = 0 and gold_pass = 0. -/
theorem C2_nextsong_aborts_exam_degrades :
    (∀ (text l : String) (parts : List String),
        l ∈ splitStr '\n' text →
        classify l = .nextsong parts →
        4 ≤ parts.length →
        (nsOffset? parts = none ∨ nsScore? parts = none) →
        tjaParse text = .error ()) ∧
    (∀ (s : PState) (c : String) (l k v : String),
        s.current_course = some c →
        classify l = .keyval k v →
        (k = "EXAM1" ∨ k = "EXAM2" ∨ k = "EXAM3" ∨ k = "EXAM4") →
        3 ≤ (splitStr ',' v).length →
        ((pyStrip ((splitStr ',' v).getD 1 "") ≠ "" ∧
            pyInt? (pyStrip ((splitStr ',' v).getD 1 "")) = none) ∨
         (pyStrip ((splitStr ',' v).getD 2 "") ≠ "" ∧
            pyInt? (pyStrip ((splitStr ',' v).getD 2 "")) = none)) →
        ∃ e : ExamRecord,
          stepLine s l = .ok { s with current_exams := s.current_exams ++ [e] } ∧
          e.red_pass = 0 ∧ e.gold_pass = 0) := by
  constructor
  · intro text l parts hmem hcl hlen hbad
    have haborts : nsAborts l = true := by
      unfold nsAborts
      rw [hcl]
      simp [hlen, nextsongRecord?_none hbad]
    unfold tjaParse parseLines
    rw [runLines_abort (splitStr '\n' text) hmem haborts initState]
    rfl
  · intro s c l k v hcc hcl hk hlen hbad
    obtain ⟨e, hre, h0r, h0g⟩ :
        ∃ e, examRecord? k v = some e ∧ e.red_pass = 0 ∧ e.gold_pass = 0 := by
      rw [examRecord?_of_len hlen]
      exact ⟨_, rfl, by rw [examRG_bad hbad], by rw [examRG_bad hbad]⟩
    refine ⟨e, ?_, h0r, h0g⟩
    have happ := applyKV_exam_append hcc v hk hre
    simp [stepLine, hcl, happ]

/-- C2 witness: a concrete malformed NEXTSONG line fails the whole parse,
    and a concrete EXAM line with a non-numeric red pass appends an exam
    record with both passes zero. -/
theorem C2_witness :
    tjaParse "#NEXTSONG a,b,c,w.ogg,bad,0" = .error () ∧
    (∃ e : ExamRecord,
       stepLine examDemoState "EXAM1:g,bad,10" =
         .ok { examDemoState with current_exams := examDemoState.current_exams ++ [e] } ∧
       e.red_pass = 0 ∧ e.gold_pass = 0) := by
  constructor
  · exact C2_nextsong_aborts_exam_degrades.1 "#NEXTSONG a,b,c,w.ogg,bad,0"
      "#NEXTSONG a,b,c,w.ogg,bad,0" ["a", "b", "c", "w.ogg", "bad", "0"]
      (by decide) rfl (by decide) (Or.inl rfl)
  · exact C2_nextsong_aborts_exam_degrades.2 examDemoState "oni" "EXAM1:g,bad,10"
      "EXAM1" "g,bad,10" rfl rfl (Or.inl rfl) (by decide) (Or.inl ⟨by decide, rfl⟩)

/-- C3 counterexample: the one-line input "#NEXTSONG a,b,c,w,x" contains no
    COURSE directive, yet its NEXTSONG line does affect the parse result:
    with the line the parse fails, while the empty input parses to a chart,
    so there is no resulting chart with an empty courses mapping. -/
theorem C3_counterexample :
    (splitStr '\n' "#NEXTSONG a,b,c,w,x").all (fun l => !isCourseLine l) = true ∧
    tjaParse "#NEXTSONG a,b,c,w,x" = .error () ∧
    tjaParse "" = .ok { title := none, subtitle := none, title_ja := none,
                        subtitle_ja := none, wave := none, offset := none,
                        courses := [] } :=
  ⟨by decide, rfl, rfl⟩

/-- C3 amended: for every input with no COURSE directive, a successful
    parse has an empty courses mapping; EXAM lines and non-aborting
    NEXTSONG lines have no effect on the parse result (removing them all
    leaves the result unchanged); and a NEXTSONG line with non-numeric
    offset/scoreInit aborts the whole parse. -/
theorem C3_no_course_behaviour (ls : List String)
    (hnc : ∀ l ∈ ls, isCourseLine l = false) :
    (∀ ch, parseLines ls = .ok ch → ch.courses = []) ∧
    parseLines (ls.filter (fun l => !droppableNC l)) = parseLines ls ∧
    (∀ l ∈ ls, nsAborts l = true → parseLines ls = .error ()) := by
  refine ⟨?_, ?_, ?_⟩
  · intro ch hch
    unfold parseLines at hch
    cases hrun : runLines initState ls with
    | error e =>
      rw [hrun] at hch
      cases hch
    | ok t =>
      rw [hrun] at hch
      injection hch with hch
      subst hch
      obtain ⟨hcs, hcc⟩ := runLines_nc_inv ls hnc initState rfl t hrun
      show commitCourses t = []
      rw [commitCourses_of_none hcc, hcs]
      rfl
  · rcases runLines_nc_filter ls hnc initState initState (RelNC.refl_of_none rfl) with
      ⟨e1, e2⟩ | ⟨t1, t2, h1, h2, hrel⟩
    · unfold parseLines
      rw [e1, e2]
    · unfold parseLines
      rw [h1, h2]
      exact congrArg Except.ok (finishState_relNC hrel)
  · intro l hl hb
    unfold parseLines
    rw [runLines_abort ls hl hb initState]
    rfl

/-- C3 witness: the amended behaviour at a concrete course-free input. -/
theorem C3_witness :
    (∀ ch, parseLines ["TITLE:Foo", "EXAM1:g,1,2", "#NEXTSONG a,b,c,d"] = .ok ch →
       ch.courses = []) ∧
    parseLines (["TITLE:Foo", "EXAM1:g,1,2", "#NEXTSONG a,b,c,d"].filter
        (fun l => !droppableNC l)) =
      parseLines ["TITLE:Foo", "EXAM1:g,1,2", "#NEXTSONG a,b,c,d"] ∧
    (∀ l ∈ ["TITLE:Foo", "EXAM1:g,1,2", "#NEXTSONG a,b,c,d"], nsAborts l = true →
       parseLines ["TITLE:Foo", "EXAM1:g,1,2", "#NEXTSONG a,b,c,d"] = .error ()) :=
  C3_no_course_behaviour ["TITLE:Foo", "EXAM1:g,1,2", "#NEXTSONG a,b,c,d"] (by decide)

/-- C7: a COURSE line whose value matches no alias still flushes the
    pending buffers into the previously active course, unsets the active
    course, and resets both buffers; with no active course the LEVEL, EXAM
    and branch-start lines are dropped; and every COURSE line, recognised
    or not, leaves the buffers empty. -/
theorem C7_unrecognized_course (s : PState) (l v : String)
    (hcl : classify l = .keyval "COURSE" v)
    (hunrec : courseMap (asciiUpper (pyStrip v)) = none) :
    stepLine s l = .ok { s with courses := commitCourses s, current_course := none,
                                current_exams := [], current_songs := [] } ∧
    (∀ (s0 : PState) (l0 : String), s0.current_course = none →
       (isLevelLine l0 = true ∨ isExamLine l0 = true ∨ isBranchLine l0 = true) →
       stepLine s0 l0 = .ok s0) ∧
    (∀ (s0 : PState) (l0 v0 : String), classify l0 = .keyval "COURSE" v0 →
       ∀ s0', stepLine s0 l0 = .ok s0' →
       s0'.current_exams = [] ∧ s0'.current_songs = []) := by
  refine ⟨?_, ?_, ?_⟩
  · simp only [stepLine, hcl]
    rw [applyKV_course_eq, hunrec]
  · intro s0 l0 hcc0 hkind
    rcases hkind with hlev | hex | hbr
    · unfold isLevelLine at hlev
      cases hcl0 : classify l0 <;> rw [hcl0] at hlev <;> simp at hlev
      case keyval k0 v0 =>
        subst hlev
        simp [stepLine, hcl0, applyKV_level_none v0 hcc0]
    · unfold isExamLine at hex
      cases hcl0 : classify l0 <;> rw [hcl0] at hex <;> simp at hex
      case keyval k0 v0 =>
        have hex' : k0 = "EXAM1" ∨ k0 = "EXAM2" ∨ k0 = "EXAM3" ∨ k0 = "EXAM4" := by tauto
        simp [stepLine, hcl0, applyKV_exam_none v0 hex' hcc0]
    · unfold isBranchLine at hbr
      cases hcl0 : classify l0 <;> rw [hcl0] at hbr <;> simp at hbr
      case bare line0 =>
        simp [stepLine, hcl0, hcc0]
  · intro s0 l0 v0 hcl0 s0' hstep
    simp only [stepLine, hcl0] at hstep
    injection hstep with hstep
    subst hstep
    exact ⟨rfl, rfl⟩

/-- A demonstration state with the oni course active and a pending exam. -/
def examDemoState2 : PState :=
  { examDemoState with
    current_exams := [{ id := 1, type := "g", red_pass := 1, gold_pass := 2, scope := "l" }] }

/-- C7 witness: a concrete unrecognised COURSE line at a state with an
    active course and a pending exam buffer. -/
theorem C7_witness :
    stepLine examDemoState2 "COURSE:Unknown" =
      .ok { examDemoState2 with courses := commitCourses examDemoState2,
                                current_course := none, current_exams := [],
                                current_songs := [] } ∧
    (∀ (s0 : PState) (l0 : String), s0.current_course = none →
       (isLevelLine l0 = true ∨ isExamLine l0 = true ∨ isBranchLine l0 = true) →
       stepLine s0 l0 = .ok s0) ∧
    (∀ (s0 : PState) (l0 v0 : String), classify l0 = .keyval "COURSE" v0 →
       ∀ s0', stepLine s0 l0 = .ok s0' →
       s0'.current_exams = [] ∧ s0'.current_songs = []) :=
  C7_unrecognized_course examDemoState2 "COURSE:Unknown" "Unknown" rfl rfl

/-- C8: to_mongo's music_type is the lower-cased extension of the wave
    field's basename with the leading dot stripped whenever such a
    non-empty extension is derivable, and the fallback "mp3" otherwise; in
    particular WAVE song.OGG gives ogg and an unset WAVE gives mp3. -/
theorem C8_music_type :
    (∀ (ch : ParsedChart) (song_id : String) (created_ns : Int),
        (to_mongo ch song_id created_ns).music_type = musicTypeSpec ch.wave) ∧
    (to_mongo { title := none, subtitle := none, title_ja := none, subtitle_ja := none,
                wave := some "song.OGG", offset := none, courses := [] } "id" 0).music_type
      = "ogg" ∧
    (to_mongo { title := none, subtitle := none, title_ja := none, subtitle_ja := none,
                wave := none, offset := none, courses := [] } "id" 0).music_type
      = "mp3" := by
  refine ⟨?_, rfl, rfl⟩
  intro ch song_id created_ns
  show toMongoExt ch.wave = musicTypeSpec ch.wave
  cases hw : ch.wave with
  | none => rfl
  | some w =>
    by_cases hwe : w = ""
    · subst hwe
      rfl
    · unfold toMongoExt musicTypeSpec
      dsimp only
      rw [if_pos hwe]
      by_cases he : splitextExt (basename w) = ""
      · have he' : ¬(splitextExt (basename w) ≠ "") := fun hne => hne he
        rw [if_neg he', he]
        rfl
      · rw [if_pos he]

/-- C9: the commit performed at a COURSE switch or at end of input writes
    the pending buffers over the active course's previous exams/songs lists
    when the buffers are non-empty (full replacement, never an append), and
    leaves the previously committed lists in place when the buffers are
    empty; two concrete runs show a re-activated course's exams being
    replaced and being kept. -/
theorem C9_commit_replaces :
    (∀ (s : PState) (c : String) (rec : CourseRecord),
        s.current_course = some c → getCourse s.courses c = some rec →
        getCourse (commitCourses s) c =
          some { rec with
                 exams := match s.current_exams with | [] => rec.exams | es => some es,
                 songs := match s.current_songs with | [] => rec.songs | sg => some sg }) ∧
    ((tjaParse "COURSE:ONI\nEXAM1:g,1,2\nCOURSE:Oni\nEXAM1:ok,3,4").map
        (fun ch => getCourse ch.courses "oni") =
      .ok (some { stars := none, branch := false,
                  exams := some [{ id := 1, type := "ok", red_pass := 3,
                                   gold_pass := 4, scope := "l" }],
                  songs := none })) ∧
    ((tjaParse "COURSE:ONI\nEXAM1:g,1,2\nCOURSE:Oni\nLEVEL:3").map
        (fun ch => getCourse ch.courses "oni") =
      .ok (some { stars := some 3, branch := false,
                  exams := some [{ id := 1, type := "g", red_pass := 1,
                                   gold_pass := 2, scope := "l" }],
                  songs := none })) := by
  refine ⟨?_, rfl, rfl⟩
  intro s c rec hcc hg
  unfold commitCourses
  rw [hcc]
  dsimp only
  rw [if_pos (containsC_of_get hg)]
  rcases hce : s.current_exams with _ | ⟨e, es⟩ <;>
    rcases hcs : s.current_songs with _ | ⟨g, gs⟩ <;> simp only [hce, hcs]
  · exact hg
  · rw [getCourse_modifyC_self, hg]
    rfl
  · rw [getCourse_modifyC_self, hg]
    rfl
  · rw [getCourse_modifyC_self, getCourse_modifyC_self, hg]
    rfl

/-- C9 witness: committing at a state with the oni course active and one
    pending exam replaces the exams entry and leaves songs alone. -/
theorem C9_witness :
    getCourse (commitCourses examDemoState2) "oni" =
      some { stars := none, branch := false,
             exams := some [{ id := 1, type := "g", red_pass := 1,
                              gold_pass := 2, scope := "l" }],
             songs := none } :=
  C9_commit_replaces.1 examDemoState2 "oni"
    { stars := none, branch := false, exams := none, songs := none } rfl rfl

/-- C10: branch detection is case-sensitive and colon-free only: with an
    active course a trimmed colon-free line starting with the exact
    upper-case token BRANCHSTART or #BRANCHSTART sets that course's branch
    to true; any line the scanner does not route to that branch leaves
    every course's branch unchanged (in particular lower- or mixed-case
    variants and colon lines); and the #NEXTSONG, #START and #END prefixes
    are matched case-insensitively. -/
theorem C10_branch_case_sensitive :
    (∀ (s : PState) (c : String) (l line : String),
        s.current_course = some c →
        classify l = .bare line →
        (listStarts line.toList "BRANCHSTART".toList ||
         listStarts line.toList "#BRANCHSTART".toList) = true →
        stepLine s l =
          .ok { s with courses := modifyC s.courses c (fun r => { r with branch := true }) }) ∧
    (∀ (s : PState) (l : String) (s' : PState), stepLine s l = .ok s' →
        isBranchLine l = false →
        ∀ (c : String) (rec : CourseRecord), getCourse s.courses c = some rec →
        ∃ rec', getCourse s'.courses c = some rec' ∧ rec'.branch = rec.branch) ∧
    (∀ s : PState, stepLine s "branchstart" = .ok s ∧ stepLine s "#BranchStart" = .ok s) ∧
    (∀ s : PState,
        stepLine s "#nextsong a,b,c,d" =
          .ok { s with current_songs := s.current_songs ++
                  [{ title := "a", artist := "b", genre := "c", wave := "d",
                     offset := 0, scoreInit := 0 }] } ∧
        stepLine s "#Start" = .ok { s with in_song_section := true } ∧
        stepLine s "#eNd" = .ok { s with in_song_section := false }) := by
  refine ⟨?_, ?_, ?_, ?_⟩
  · intro s c l line hcc hcl hpre
    simp only [stepLine, hcl]
    rw [hcc]
    dsimp only
    rw [if_pos hpre]
  · intro s l s' hstep hbr c rec hg
    obtain ⟨rec', hr, _, hb⟩ := stepLine_preserves_sb hstep hg
    exact ⟨rec', hr, hb hbr⟩
  · intro s
    obtain ⟨t1, t2, t3, t4, t5, t6, cs, cc, ce, cg, iss⟩ := s
    cases cc <;> exact ⟨rfl, rfl⟩
  · intro s
    exact ⟨rfl, rfl, rfl⟩

/-- C10 witness: a concrete upper-case branch line sets the branch of the
    active oni course, and a concrete lower-case line leaves it unchanged. -/
theorem C10_witness :
    stepLine examDemoState "BRANCHSTART x" =
      .ok { examDemoState with
            courses := modifyC examDemoState.courses "oni"
              (fun r => { r with branch := true }) } ∧
    (∃ rec', getCourse examDemoState.courses "oni" = some rec' ∧
       rec'.branch = ({ stars := none, branch := false } : CourseRecord).branch) := by
  constructor
  · exact C10_branch_case_sensitive.1 examDemoState "oni" "BRANCHSTART x" "BRANCHSTART x"
      rfl rfl (by decide)
  · exact C10_branch_case_sensitive.2.1 examDemoState "branchstart" examDemoState
      ((C10_branch_case_sensitive.2.2.1 examDemoState).1) (by decide) "oni"
      { stars := none, branch := false } rfl

/-- C6: when a COURSE line re-introduces a course already present, and the
    rest of the input contains no LEVEL and no branch-start line, the
    course's stars and branch set earlier survive unchanged into the final
    record, while the exam/song buffers are reset to empty at that COURSE
    line. -/
theorem C6_redeclare_preserves (pre block : List String) (cl v c : String)
    (s : PState) (ch : ParsedChart) (rec : CourseRecord)
    (hpre : runLines initState pre = .ok s)
    (hcl : classify cl = .keyval "COURSE" v)
    (hres : courseMap (asciiUpper (pyStrip v)) = some c)
    (hgot : getCourse s.courses c = some rec)
    (hblock : ∀ l ∈ block, isLevelLine l = false ∧ isBranchLine l = false)
    (hch : parseLines (pre ++ cl :: block) = .ok ch) :
    (∃ rec', getCourse ch.courses c = some rec' ∧
       rec'.stars = rec.stars ∧ rec'.branch = rec.branch) ∧
    (∀ s', stepLine s cl = .ok s' → s'.current_exams = [] ∧ s'.current_songs = []) := by
  have hstep : stepLine s cl = .ok (applyKV s "COURSE" v) := by
    simp [stepLine, hcl]
  constructor
  · unfold parseLines at hch
    rw [runLines_append, hpre] at hch
    dsimp only at hch
    simp only [runLines] at hch
    rw [hstep] at hch
    dsimp only at hch
    obtain ⟨r1, hr1, hs1, hb1⟩ := stepLine_preserves_sb hstep hgot
    have hs1' := hs1 (by simp [isLevelLine, hcl])
    have hb1' := hb1 (by simp [isBranchLine, hcl])
    cases hrun : runLines (applyKV s "COURSE" v) block with
    | error e =>
      rw [hrun] at hch
      cases hch
    | ok t =>
      rw [hrun] at hch
      injection hch with hch
      subst hch
      obtain ⟨r2, hr2, hs2, hb2⟩ := runLines_preserves_sb block hblock _ t hrun c r1 hr1
      obtain ⟨r3, hr3, hs3, hb3⟩ := commitCourses_preserves_sb hr2
      exact ⟨r3, hr3, (hs3.trans hs2).trans hs1', (hb3.trans hb2).trans hb1'⟩
  · intro s' h
    rw [hstep] at h
    injection h with h
    subst h
    exact ⟨rfl, rfl⟩

/-- The line list of a first course block for the C6 witness. -/
def c6Pre : List String := ["COURSE:ONI", "LEVEL:8", "BRANCHSTART"]

/-- The second block, containing neither LEVEL nor branch lines. -/
def c6Block : List String := ["EXAM1:g,1,2"]

/-- The scanner state after the first block. -/
def c6State : PState :=
  { initState with courses := [("oni", { stars := some 8, branch := true })],
                   current_course := some "oni" }

/-- The final chart of the C6 witness run. -/
def c6Chart : ParsedChart :=
  { title := none, subtitle := none, title_ja := none, subtitle_ja := none,
    wave := none, offset := none,
    courses := [("oni", { stars := some 8, branch := true,
                          exams := some [{ id := 1, type := "g", red_pass := 1,
                                           gold_pass := 2, scope := "l" }],
                          songs := none })] }

/-- C6 witness: re-declaring COURSE:Oni after a first block that set
    stars 8 and branch true, followed only by an EXAM line, keeps stars
    and branch and resets the buffers at the second COURSE line. -/
theorem C6_witness :
    (∃ rec', getCourse c6Chart.courses "oni" = some rec' ∧
       rec'.stars = some 8 ∧ rec'.branch = true) ∧
    (∀ s', stepLine c6State "COURSE:Oni" = .ok s' →
       s'.current_exams = [] ∧ s'.current_songs = []) :=
  C6_redeclare_preserves c6Pre c6Block "COURSE:Oni" "Oni" "oni" c6State c6Chart
    { stars := some 8, branch := true } rfl rfl rfl rfl (by decide) rfl
